import Mathlib

/-!
Verification development for the LineCook single-document task store
(`server.py`).  The server persists one JSON document (`data/doc.json`)
holding `{revision, updatedAt, doc}` and exposes three handlers:

* `_handle_get_doc`    — seed-if-absent, then return the stored document;
* `_handle_put_doc`    — optimistic-concurrency compare-and-swap write;
* `_handle_get_inprogress` — filtered view of the not-done tasks.

The wall clock `_utc_now_iso()` (UTC, second precision) is modelled as an
opaque `String` parameter `now` supplied to each operation.  JSON values are
embedded as the inductive `JValue`; Python `dict.get`, truthiness,
`isinstance(·, int)` (which accepts `bool`, a subclass of `int`) and
iteration are given explicit executable counterparts.
-/

namespace LineCook

/-- A JSON value as handled by Python's `json` module (object fields kept in
insertion order, as Python dicts do). Floats do not occur in this program's
data paths, so numbers are integers. -/
inductive JValue where
  | null : JValue
  | bool (b : Bool) : JValue
  | num (n : Int) : JValue
  | str (s : String) : JValue
  | arr (elems : List JValue) : JValue
  | obj (fields : List (String × JValue)) : JValue

/-- Key lookup in a JSON object's field list (Python dicts have unique keys;
lookup returns the first binding). -/
def jLookup : List (String × JValue) → String → Option JValue
  | [], _ => none
  | (k, v) :: fs, key => if k = key then some v else jLookup fs key

/-- Python truthiness (`bool(v)`) for JSON values: `None`, `False`, `0`,
empty string, empty list and empty dict are falsy. -/
def truthy : JValue → Bool
  | .null => false
  | .bool b => b
  | .num n => n != 0
  | .str s => s != ""
  | .arr xs => !xs.isEmpty
  | .obj fs => !fs.isEmpty

/-- Truthiness of a `dict.get` result: Python's `None` (absent key) is falsy. -/
def pyTruthyOpt : Option JValue → Bool
  | none => false
  | some v => truthy v

/-- Runtime errors a handler body can raise (caught by `do_GET`/`do_PUT` and
mapped to a 500 response). -/
inductive PyErr where
  | attributeError : PyErr
  | typeError : PyErr
deriving DecidableEq

/-- Python `v.get(key)`: defined on dicts (returning `None` as `none` for a
missing key), raises `AttributeError` on any other value. -/
def pyGet : JValue → String → Except PyErr (Option JValue)
  | .obj fs, key => .ok (jLookup fs key)
  | _, _ => .error .attributeError

/-- Python `v.get(key, dflt)`: the default is used only when the key is
missing (an explicit `null` value is returned as-is). -/
def pyGetD (v : JValue) (key : String) (dflt : JValue) : Except PyErr JValue := do
  let r ← pyGet v key
  pure (r.getD dflt)

/-- Python iteration over a JSON value: lists yield elements, strings yield
one-character strings, dicts yield their keys; other values raise
`TypeError`. -/
def pyIter : JValue → Except PyErr (List JValue)
  | .arr xs => .ok xs
  | .str s => .ok (s.data.map fun c => .str (String.mk [c]))
  | .obj fs => .ok (fs.map fun kv => .str kv.1)
  | _ => .error .typeError

/-- `isinstance(x, int)` on a `body.get(...)` result: Python's `bool` is a
subclass of `int`, so booleans pass; `None` (missing key) does not. -/
def isPyInt : Option JValue → Bool
  | some (.num _) => true
  | some (.bool _) => true
  | _ => false

/-- `isinstance(x, dict)` on a `body.get(...)` result. -/
def isPyDict : Option JValue → Bool
  | some (.obj _) => true
  | _ => false

/-- Numeric value of a Python `int` (with `True == 1`, `False == 0`), as used
by the `base_revision != current_rev` comparison. -/
def pyIntVal : JValue → Int
  | .num n => n
  | .bool b => if b then 1 else 0
  | _ => 0

/-- The persisted document `{revision, updatedAt, doc}`.  The store is only
ever written by `_ensure_seed_doc` and `_handle_put_doc`, both of which
store an integer `revision`, a string `updatedAt`, and the (opaque, but
dict-shaped when written) payload `doc`; this structure captures exactly
those reachable persisted states. -/
structure Document where
  revision : Int
  updatedAt : String
  doc : JValue

/-- The fixed two-task example payload written by `_ensure_seed_doc`. -/
def seedTasks : List JValue :=
  [ .obj [("id", .str "t1"),
          ("title", .str "Example task 2025-12-16 3d"),
          ("done", .bool false),
          ("collapsed", .bool false),
          ("parentId", .null),
          ("order", .num 0),
          ("start", .null),
          ("end", .null)],
    .obj [("id", .str "t2"),
          ("title", .str "Subtask 2025-12-18"),
          ("done", .bool false),
          ("collapsed", .bool false),
          ("parentId", .str "t1"),
          ("order", .num 0),
          ("start", .null),
          ("end", .null)] ]

/-- The seed payload `{"tasks": [...]}`. -/
def seedPayload : JValue := .obj [("tasks", .arr seedTasks)]

/-- The seed document written on first access: revision 0, current
timestamp, fixed two-task payload. -/
def seedDoc (now : String) : Document := ⟨0, now, seedPayload⟩

/-- `_ensure_seed_doc` followed by `_read_json(DOC_PATH)`: if the store file
exists it is left untouched, otherwise the seed document is written.  The
result is the document now present in the store (`none` models a store file
that has never been created). -/
def ensure_seed_doc (store : Option Document) (now : String) : Document :=
  store.getD (seedDoc now)

/-- `_handle_get_doc`: seed if absent, read, and return the stored document
with a 200 status.  The pair is (response document, store contents after the
request). -/
def handle_get_doc (store : Option Document) (now : String) :
    Document × Option Document :=
  let d := ensure_seed_doc store now
  (d, some d)

/-- Outcome of `_handle_put_doc`: a 400 `ApiError`, a 409 conflict response
carrying the current document, or a 200 success carrying the newly written
document. -/
inductive PutOutcome where
  | invalid (message : String) : PutOutcome
  | conflict (current : Document) : PutOutcome
  | committed (next : Document) : PutOutcome

/-- The HTTP status code each `_handle_put_doc` outcome is reported with. -/
def putStatus : PutOutcome → Int
  | .invalid _ => 400
  | .conflict _ => 409
  | .committed _ => 200

/-- `_handle_put_doc`: seed if absent, read the current document, then
validate `body.get("baseRevision")` and `body.get("doc")` (passed here as
the two lookup results of a JSON-object request body), compare revisions
and either reject with 409 or atomically write
`{revision: current_rev + 1, updatedAt: now, doc: incoming_doc}`.
`int(current.get("revision", 0))` is the stored revision, an `Int` for
every reachable store state.  The pair is (outcome, store contents after
the request). -/
def handle_put_doc (store : Option Document) (now : String)
    (baseRevision : Option JValue) (doc : Option JValue) :
    PutOutcome × Option Document :=
  let current := ensure_seed_doc store now
  if !isPyInt baseRevision then
    (.invalid "baseRevision must be an integer", some current)
  else if !isPyDict doc then
    (.invalid "doc must be an object", some current)
  else if pyIntVal ((baseRevision).getD .null) != current.revision then
    (.conflict current, some current)
  else
    (.committed ⟨current.revision + 1, now, (doc).getD .null⟩,
      some ⟨current.revision + 1, now, (doc).getD .null⟩)

/-- The body of `_handle_get_inprogress`'s list comprehension: keep a task
`t` when `not t.get("done")` holds; `t.get` raises `AttributeError` when
`t` is not a dict. -/
def taskKept (t : JValue) : Except PyErr Bool := do
  let d ← pyGet t "done"
  pure (!pyTruthyOpt d)

/-- The list comprehension `[t for t in tasks if not t.get("done")]`,
evaluated left to right, propagating the first raised error. -/
def filterInProgress : List JValue → Except PyErr (List JValue)
  | [] => .ok []
  | t :: ts => do
    let keep ← taskKept t
    let rest ← filterInProgress ts
    pure (if keep then t :: rest else rest)

/-- The body of `_handle_get_inprogress` applied to the raw persisted JSON
payload: `payload.get("doc", {}).get("tasks", [])` followed by the
comprehension filtering out tasks whose `done` value is truthy. -/
def get_inprogress_payload (payload : JValue) : Except PyErr (List JValue) := do
  let docV ← pyGetD payload "doc" (.obj [])
  let tasksV ← pyGetD docV "tasks" (.arr [])
  let ts ← pyIter tasksV
  filterInProgress ts

/-- The persisted JSON wire form of a stored `Document`, as written by
`_write_json_atomic` and read back by `_read_json`. -/
def encodeDocument (d : Document) : JValue :=
  .obj [("revision", .num d.revision), ("updatedAt", .str d.updatedAt),
        ("doc", d.doc)]

/-- `_handle_get_inprogress`: seed if absent, read the stored document, and
compute the in-progress view of its payload.  The pair is (response,
store contents after the request). -/
def handle_get_inprogress (store : Option Document) (now : String) :
    Except PyErr (List JValue) × Option Document :=
  let d := ensure_seed_doc store now
  (get_inprogress_payload (encodeDocument d), some d)

/-! ### Operation traces (sequential semantics)

One request at a time; each request carries the wall-clock value `now`
observed while it is handled. -/

/-- One API request against the document store. -/
inductive Op where
  | getDoc (now : String) : Op
  | putDoc (now : String) (baseRevision : Option JValue) (doc : Option JValue) : Op
  | getInprogress (now : String) : Op

/-- Store contents after handling one request. -/
def stepStore (store : Option Document) : Op → Option Document
  | .getDoc now => (handle_get_doc store now).2
  | .putDoc now b dv => (handle_put_doc store now b dv).2
  | .getInprogress now => (handle_get_inprogress store now).2

/-- Store contents after handling a sequence of requests in order. -/
def runStore (store : Option Document) : List Op → Option Document
  | [] => store
  | op :: ops => runStore (stepStore store op) ops

/-- The revisions assigned by the accepted (committed) writes of a request
sequence, in commit order. -/
def acceptedRevs (store : Option Document) : List Op → List Int
  | [] => []
  | op :: ops =>
    let rest := acceptedRevs (stepStore store op) ops
    match op with
    | .putDoc now b dv =>
      match (handle_put_doc store now b dv).1 with
      | .committed nd => nd.revision :: rest
      | _ => rest
    | _ => rest

/-- `consecFrom s k = [s, s+1, ..., s+k-1]`: the consecutive run of `k`
integers starting at `s`. -/
def consecFrom (start : Int) : Nat → List Int
  | 0 => []
  | k + 1 => start :: consecFrom (start + 1) k

/-! ### Two concurrent `PUT /api/doc` requests (interleaving semantics)

`_handle_put_doc` performs `_read_json(DOC_PATH)` (the load) and, later,
`_write_json_atomic` (the store) as two separate steps with no lock between
them; `ThreadingHTTPServer` runs each request on its own thread.  A writer
thread is modelled with two atomic transitions: the load, and the
validate/compare/write tail that uses the previously loaded document. -/

/-- Program counter of one in-flight `PUT /api/doc` request. -/
inductive WriterPC where
  | ready : WriterPC
  | loaded (current : Document) : WriterPC
  | responded (outcome : PutOutcome) : WriterPC

/-- One atomic transition of a writer thread with request inputs
(`now`, `baseRevision`, `doc`): first the seed-and-load of lines 146-147 of
`server.py`, then the validation, revision comparison and atomic write of
lines 150-169, using the document loaded earlier. -/
def writerStep (now : String) (baseRevision doc : Option JValue)
    (store : Option Document) (pc : WriterPC) :
    Option Document × WriterPC :=
  match pc with
  | .ready =>
    let current := ensure_seed_doc store now
    (some current, .loaded current)
  | .loaded current =>
    if !isPyInt baseRevision then
      (store, .responded (.invalid "baseRevision must be an integer"))
    else if !isPyDict doc then
      (store, .responded (.invalid "doc must be an object"))
    else if pyIntVal ((baseRevision).getD .null) != current.revision then
      (store, .responded (.conflict current))
    else
      (some ⟨current.revision + 1, now, (doc).getD .null⟩,
        .responded (.committed ⟨current.revision + 1, now, (doc).getD .null⟩))
  | .responded o => (store, .responded o)

/-- Inputs of one `PUT /api/doc` request: observed clock value and the two
body fields. -/
structure PutRequest where
  now : String
  baseRevision : Option JValue
  doc : Option JValue

/-- State of the system while two `PUT /api/doc` requests are in flight. -/
structure SysState where
  store : Option Document
  w1 : WriterPC
  w2 : WriterPC

/-- Run one atomic step of the writer selected by the scheduler
(`false` = first writer, `true` = second writer). -/
def sysStep (r1 r2 : PutRequest) (s : SysState) (tid : Bool) : SysState :=
  if tid then
    let (store, pc) := writerStep r2.now r2.baseRevision r2.doc s.store s.w2
    { s with store := store, w2 := pc }
  else
    let (store, pc) := writerStep r1.now r1.baseRevision r1.doc s.store s.w1
    { s with store := store, w1 := pc }

/-- Run a schedule (list of thread choices) from a system state. -/
def runSched (r1 r2 : PutRequest) (s : SysState) : List Bool → SysState
  | [] => s
  | tid :: rest => runSched r1 r2 (sysStep r1 r2 s tid) rest

/-- Whether a writer thread has finished with a committed (200) response. -/
def hasCommitted : WriterPC → Bool
  | .responded (.committed _) => true
  | _ => false

/-- Whether a writer thread has finished with a conflict (409) response. -/
def hasConflicted : WriterPC → Bool
  | .responded (.conflict _) => true
  | _ => false

/-! ### Spec-side predicates for the in-progress view -/

/-- The selection the code's comprehension makes, as a pure predicate on a
task object: keep when the `done` field is absent or its value is falsy. -/
def keepTask (t : JValue) : Bool :=
  match t with
  | .obj fs => !pyTruthyOpt (jLookup fs "done")
  | _ => false

/-- The selection claimed by the spec sentence, read literally: keep a task
exactly when its `done` field is the boolean `false` or absent. -/
def specFalseOrAbsent (t : JValue) : Bool :=
  match t with
  | .obj fs =>
    match jLookup fs "done" with
    | none => true
    | some (.bool false) => true
    | some _ => false
  | _ => false

/-- Whether a JSON value is a dict. -/
def isObj : JValue → Bool
  | .obj _ => true
  | _ => false

/-- Python dict assignment `d[k] = v` on a field list: replace the binding
for `k` if present, otherwise append it. -/
def setKey : List (String × JValue) → String → JValue → List (String × JValue)
  | [], k, v => [(k, v)]
  | (k0, v0) :: fs, k, v =>
    if k0 = k then (k, v) :: fs else (k0, v0) :: setKey fs k v

/-! ### Helper lemmas -/

theorem ensure_seed_doc_some (d : Document) (now : String) :
    ensure_seed_doc (some d) now = d := rfl

/-- `_handle_put_doc` on a non-empty store: the three possible outcomes,
each with the store contents it leaves behind. -/
theorem handle_put_doc_cases (d : Document) (now : String) (b dv : Option JValue) :
    (∃ msg, handle_put_doc (some d) now b dv = (.invalid msg, some d))
    ∨ handle_put_doc (some d) now b dv = (.conflict d, some d)
    ∨ handle_put_doc (some d) now b dv
        = (.committed ⟨d.revision + 1, now, dv.getD .null⟩,
           some ⟨d.revision + 1, now, dv.getD .null⟩) := by
  unfold handle_put_doc
  rw [ensure_seed_doc_some]
  by_cases h1 : isPyInt b
  · by_cases h2 : isPyDict dv
    · by_cases h3 : pyIntVal (b.getD .null) = d.revision
      · right; right; simp [h1, h2, h3]
      · right; left; simp [h1, h2, bne_iff_ne, h3]
    · left; exact ⟨"doc must be an object", by simp [h1, h2]⟩
  · left; exact ⟨"baseRevision must be an integer", by simp [h1]⟩

/-! ### Claim theorems -/

/-- C1: a propose-update whose `baseRevision` equals the currently stored
revision writes and returns a new Document with revision `baseRevision + 1`,
`updatedAt` equal to the clock value observed while handling the request,
and `doc` equal to the candidate payload, reported with status 200, which
differs from the conflict status 409. -/
theorem c1_commit_success (store : Option Document) (now : String) (r : Int)
    (fs : List (String × JValue))
    (hrev : (ensure_seed_doc store now).revision = r) :
    handle_put_doc store now (some (.num r)) (some (.obj fs))
      = (.committed ⟨r + 1, now, .obj fs⟩, some ⟨r + 1, now, .obj fs⟩)
    ∧ putStatus (handle_put_doc store now (some (.num r)) (some (.obj fs))).1 = 200
    ∧ ∀ c, putStatus (PutOutcome.conflict c) ≠ 200 := by
  have h : handle_put_doc store now (some (.num r)) (some (.obj fs))
      = (.committed ⟨r + 1, now, .obj fs⟩, some ⟨r + 1, now, .obj fs⟩) := by
    unfold handle_put_doc
    simp [isPyInt, isPyDict, pyIntVal, hrev]
  exact ⟨h, by rw [h]; rfl, fun c => by simp [putStatus]⟩

/-- C1 witness: committing on top of the seed document at revision 0. -/
theorem c1_commit_success_witness :
    handle_put_doc (some (seedDoc "T0")) "T1" (some (.num 0)) (some (.obj []))
      = (.committed ⟨0 + 1, "T1", .obj []⟩, some ⟨0 + 1, "T1", .obj []⟩) :=
  (c1_commit_success (some (seedDoc "T0")) "T1" 0 [] rfl).1

/-- C2: a propose-update whose `baseRevision` differs from the currently
stored revision performs no write (the stored Document is unchanged),
responds with the conflict status 409 carrying the Document exactly as
persisted, and a concurrent `GetDocument` would return the same revision. -/
theorem c2_conflict_no_write (d : Document) (now now2 : String)
    (b dv : Option JValue)
    (hint : isPyInt b = true) (hobj : isPyDict dv = true)
    (hne : pyIntVal (b.getD .null) ≠ d.revision) :
    handle_put_doc (some d) now b dv = (.conflict d, some d)
    ∧ putStatus (handle_put_doc (some d) now b dv).1 = 409
    ∧ (handle_get_doc (some d) now2).1 = d
    ∧ (handle_get_doc (some d) now2).1.revision = d.revision := by
  have h : handle_put_doc (some d) now b dv = (.conflict d, some d) := by
    unfold handle_put_doc
    rw [ensure_seed_doc_some]
    simp [hint, hobj, bne_iff_ne, hne]
  exact ⟨h, by rw [h]; rfl, rfl, rfl⟩

/-- C2 witness: proposing base revision 7 against the revision-0 seed. -/
theorem c2_conflict_no_write_witness :
    handle_put_doc (some (seedDoc "T0")) "T1" (some (.num 7)) (some (.obj []))
      = (.conflict (seedDoc "T0"), some (seedDoc "T0")) :=
  (c2_conflict_no_write (seedDoc "T0") "T1" "T2" (some (.num 7)) (some (.obj []))
    rfl rfl (by decide)).1

/-- C3 counterexample: the claim fails twice on the code.  A `baseRevision`
of `-1` (an integer that is not ≥ 0) is not rejected with 400 — it reaches
the revision comparison and is answered 409 — and an invalid request
(`baseRevision` a string) against an empty store still seeds the store
before validation, so the store is touched. -/
theorem c3_validation_counterexample :
    putStatus (handle_put_doc (some ⟨5, "T0", .obj []⟩) "T1"
        (some (.num (-1))) (some (.obj []))).1 = 409
    ∧ (409 : Int) ≠ 400
    ∧ (handle_put_doc none "T1" (some (.str "zero")) (some (.obj []))).2
        = some (seedDoc "T1")
    ∧ some (seedDoc "T1") ≠ (none : Option Document) := by
  refine ⟨rfl, by decide, rfl, by simp⟩

/-- C3 amended: a propose-update whose `baseRevision` fails
`isinstance(·, int)` (booleans count as integers and negative integers are
accepted) or whose payload is not a mapping fails with status 400 and the
compare-and-swap write does not happen — but the store is seeded (if empty)
and read before validation, so the store after the request holds the
seeded/current document. -/
theorem c3_invalid_rejected_after_seeding (store : Option Document)
    (now : String) (b dv : Option JValue)
    (h : isPyInt b = false ∨ isPyDict dv = false) :
    (∃ msg, (handle_put_doc store now b dv).1 = .invalid msg)
    ∧ putStatus (handle_put_doc store now b dv).1 = 400
    ∧ (handle_put_doc store now b dv).2 = some (ensure_seed_doc store now) := by
  unfold handle_put_doc
  rcases h with h | h
  · exact ⟨⟨"baseRevision must be an integer", by simp [h]⟩,
      by simp [h, putStatus], by simp [h]⟩
  · by_cases h1 : isPyInt b
    · exact ⟨⟨"doc must be an object", by simp [h1, h]⟩,
        by simp [h1, h, putStatus], by simp [h1, h]⟩
    · exact ⟨⟨"baseRevision must be an integer", by simp [h1]⟩,
        by simp [h1, putStatus], by simp [h1]⟩

/-- C3 witness: a string `baseRevision` against an empty store is answered
400 with the store now holding the seed. -/
theorem c3_invalid_rejected_after_seeding_witness :
    putStatus (handle_put_doc none "T0" (some (.str "zero")) (some (.obj []))).1 = 400
    ∧ (handle_put_doc none "T0" (some (.str "zero")) (some (.obj []))).2
        = some (ensure_seed_doc none "T0") := by
  have h := c3_invalid_rejected_after_seeding none "T0"
    (some (.str "zero")) (some (.obj [])) (Or.inl rfl)
  exact ⟨h.2.1, h.2.2⟩

/-- C7: the first `GetDocument` on an empty store returns the revision-0
seed Document with the fixed two-task payload; a second call with no
intervening write returns the same revision-0 Document; and a `GetDocument`
on a non-empty store never overwrites the stored Document. -/
theorem c7_lazy_seed_once (now now2 : String) (d : Document) :
    handle_get_doc none now = (seedDoc now, some (seedDoc now))
    ∧ (seedDoc now).revision = 0
    ∧ (seedDoc now).doc = seedPayload
    ∧ seedTasks.length = 2
    ∧ handle_get_doc (some (seedDoc now)) now2 = (seedDoc now, some (seedDoc now))
    ∧ handle_get_doc (some d) now2 = (d, some d) :=
  ⟨rfl, rfl, rfl, rfl, rfl, rfl⟩

/-- C8: a successful `ProposeUpdate(r, payload)` followed immediately by
`GetDocument` (no intervening write) returns a Document whose `doc` is
`payload` and whose revision is `r + 1`. -/
theorem c8_roundtrip (store : Option Document) (now now2 : String) (r : Int)
    (payload : JValue) (nd : Document) (st : Option Document)
    (h : handle_put_doc store now (some (.num r)) (some payload)
        = (.committed nd, st)) :
    handle_get_doc st now2 = (nd, st)
    ∧ nd.doc = payload
    ∧ nd.revision = r + 1 := by
  unfold handle_put_doc at h
  by_cases h2 : isPyDict (some payload) = true
  · by_cases h3 : pyIntVal ((some (.num r) : Option JValue).getD .null)
        = (ensure_seed_doc store now).revision
    · simp only [isPyInt, Bool.not_true, Bool.false_eq_true, if_false,
        h2, h3, bne_self_eq_false] at h
      rw [Prod.mk.injEq] at h
      obtain ⟨h4, h5⟩ := h
      injection h4 with h6
      have hr : pyIntVal ((some (.num r) : Option JValue).getD .null) = r := rfl
      subst h6
      subst h5
      refine ⟨rfl, rfl, ?_⟩
      show _ + (1 : Int) = r + 1
      rw [← h3, hr]
    · simp only [Option.getD_some] at h3
      simp [isPyInt, h2, bne_iff_ne, h3] at h
  · rw [Bool.not_eq_true] at h2
    simp [isPyInt, h2] at h

/-- C8 witness: committing `{}` on the seed store at revision 0 and reading
it back. -/
theorem c8_roundtrip_witness :
    handle_get_doc (some ⟨1, "T1", .obj []⟩) "T2"
      = (⟨1, "T1", .obj []⟩, some ⟨1, "T1", .obj []⟩)
    ∧ (Document.mk 1 "T1" (.obj [])).doc = .obj []
    ∧ (Document.mk 1 "T1" (.obj [])).revision = 0 + 1 :=
  c8_roundtrip (some (seedDoc "T0")) "T1" "T2" 0 (.obj []) ⟨1, "T1", .obj []⟩
    (some ⟨1, "T1", .obj []⟩) rfl

/-- C9: a boolean `baseRevision` passes the `isinstance(·, int)` check (bool
is a subclass of int in Python), so it is never rejected as invalid; it
reaches the revision comparison, where `False` compares equal to revision 0
and commits a write, while `True` compares equal to 1 and conflicts at
revision 0. -/
theorem c9_bool_base_revision (d : Document) (now : String) (b : Bool)
    (fs : List (String × JValue)) :
    (∀ msg, (handle_put_doc (some d) now (some (.bool b)) (some (.obj fs))).1
        ≠ .invalid msg)
    ∧ (d.revision = 0 →
        handle_put_doc (some d) now (some (.bool false)) (some (.obj fs))
          = (.committed ⟨1, now, .obj fs⟩, some ⟨1, now, .obj fs⟩))
    ∧ (d.revision = 0 →
        (handle_put_doc (some d) now (some (.bool true)) (some (.obj fs))).1
          = .conflict d) := by
  refine ⟨?_, ?_, ?_⟩
  · intro msg
    unfold handle_put_doc
    rw [ensure_seed_doc_some]
    simp only [isPyInt, isPyDict, Bool.not_true, Bool.false_eq_true, if_false]
    split <;> simp
  · intro h0
    unfold handle_put_doc
    rw [ensure_seed_doc_some]
    simp [isPyInt, isPyDict, pyIntVal, h0]
  · intro h0
    unfold handle_put_doc
    rw [ensure_seed_doc_some]
    simp [isPyInt, isPyDict, pyIntVal, h0]

/-- C9 witness: `baseRevision = false` commits on the revision-0 seed
store. -/
theorem c9_bool_base_revision_witness :
    handle_put_doc (some (seedDoc "T0")) "T1" (some (.bool false)) (some (.obj []))
      = (.committed ⟨1, "T1", .obj []⟩, some ⟨1, "T1", .obj []⟩) :=
  (c9_bool_base_revision (seedDoc "T0") "T1" false []).2.1 rfl

/-- C10: on a stored payload with no `doc` key, or whose `doc` object has no
`tasks` key, the in-progress view totally succeeds and returns the empty
list: the missing-key branches default to `{}` and `[]`. -/
theorem c10_missing_keys_empty (fs : List (String × JValue)) :
    (jLookup fs "doc" = none → get_inprogress_payload (.obj fs) = .ok [])
    ∧ (∀ gs, jLookup fs "doc" = some (.obj gs) → jLookup gs "tasks" = none →
        get_inprogress_payload (.obj fs) = .ok []) := by
  constructor
  · intro h
    simp [get_inprogress_payload, pyGetD, pyGet, h, pyIter, filterInProgress,
      jLookup, bind, Except.bind, pure, Except.pure]
  · intro gs h1 h2
    simp [get_inprogress_payload, pyGetD, pyGet, h1, h2, pyIter,
      filterInProgress, jLookup, bind, Except.bind, pure, Except.pure]

/-- C10 witness: an empty payload and a payload whose `doc` is `{}` both
yield the empty in-progress list. -/
theorem c10_missing_keys_empty_witness :
    get_inprogress_payload (.obj []) = .ok []
    ∧ get_inprogress_payload (.obj [("doc", .obj [])]) = .ok [] :=
  ⟨(c10_missing_keys_empty []).1 rfl,
   (c10_missing_keys_empty [("doc", .obj [])]).2 [] rfl rfl⟩

/-- On a list of task objects the comprehension raises nothing and performs
exactly a `List.filter` with the pure selection predicate. -/
theorem filterInProgress_eq_filter (ts : List JValue)
    (h : ∀ t ∈ ts, isObj t = true) :
    filterInProgress ts = .ok (ts.filter keepTask) := by
  induction ts with
  | nil => rfl
  | cons t ts ih =>
    obtain ⟨fs, rfl⟩ : ∃ fs, t = .obj fs := by
      have ht := h t (by simp)
      cases t <;> simp [isObj] at ht ⊢
    have hts : ∀ u ∈ ts, isObj u = true := fun u hu => h u (by simp [hu])
    simp only [filterInProgress, taskKept, pyGet, bind, Except.bind, pure,
      Except.pure, ih hts, List.filter_cons, keepTask]

/-- Looking up a key is unaffected by assigning a different key. -/
theorem jLookup_setKey_ne (fs : List (String × JValue)) (k : String)
    (v : JValue) (key : String) (hk : k ≠ key) :
    jLookup (setKey fs k v) key = jLookup fs key := by
  induction fs with
  | nil => simp [setKey, jLookup, hk]
  | cons kv fs ih =>
    obtain ⟨k0, v0⟩ := kv
    by_cases h0 : k0 = k
    · subst h0
      simp [setKey, jLookup, hk]
    · by_cases h1 : k0 = key <;>
        simp [setKey, jLookup, h0, h1, ih, Ne.symm hk]

/-- C6 counterexample: a stored document holding one task with `done: 0`.
The code's view keeps the task (`0` is falsy), but the claim's selection —
`done` false or absent — excludes it, since its `done` field is present and
is not the boolean `false`. -/
theorem c6_truthiness_counterexample :
    get_inprogress_payload
        (.obj [("doc", .obj [("tasks",
          .arr [.obj [("id", .str "x"), ("done", .num 0)]])])])
      = .ok [.obj [("id", .str "x"), ("done", .num 0)]]
    ∧ List.filter specFalseOrAbsent
        [.obj [("id", .str "x"), ("done", .num 0)]] = []
    ∧ jLookup [("id", .str "x"), ("done", .num 0)] "done" = some (.num 0)
    ∧ JValue.num 0 ≠ .bool false := by
  refine ⟨rfl, rfl, rfl, by intro h; cases h⟩

/-- C6 amended: on every stored payload whose `doc.tasks` is a list of task
objects, the in-progress view succeeds and returns exactly the subsequence
of `doc.tasks` whose `done` field is absent or falsy as a JSON value
(`false`, `null`, `0`, empty string, empty collection), preserving original
relative order (a `List.filter`, hence a sublist), and the selection is
insensitive to the tasks' `collapsed` and `parentId` fields. -/
theorem c6_inprogress_filter (pf df : List (String × JValue)) (ts : List JValue)
    (hdoc : jLookup pf "doc" = some (.obj df))
    (htasks : jLookup df "tasks" = some (.arr ts))
    (hobjs : ∀ t ∈ ts, isObj t = true) :
    get_inprogress_payload (.obj pf) = .ok (ts.filter keepTask)
    ∧ (ts.filter keepTask).Sublist ts
    ∧ (∀ fs v, keepTask (.obj (setKey fs "collapsed" v)) = keepTask (.obj fs))
    ∧ (∀ fs v, keepTask (.obj (setKey fs "parentId" v)) = keepTask (.obj fs)) := by
  refine ⟨?_, List.filter_sublist ts, ?_, ?_⟩
  · simp [get_inprogress_payload, pyGetD, pyGet, hdoc, htasks, pyIter,
      bind, Except.bind, pure, Except.pure, filterInProgress_eq_filter ts hobjs]
  · intro fs v
    simp [keepTask, jLookup_setKey_ne fs "collapsed" v "done" (by decide)]
  · intro fs v
    simp [keepTask, jLookup_setKey_ne fs "parentId" v "done" (by decide)]

/-- C6 witness: the two-task payload `[{done: true}, {id: t9}]` filters to
the single task without a truthy `done`. -/
theorem c6_inprogress_filter_witness :
    get_inprogress_payload
        (.obj [("doc", .obj [("tasks",
          .arr [.obj [("id", .str "t8"), ("done", .bool true)],
                .obj [("id", .str "t9")]])])])
      = .ok (List.filter keepTask
          [.obj [("id", .str "t8"), ("done", .bool true)],
           .obj [("id", .str "t9")]]) :=
  (c6_inprogress_filter [("doc", .obj [("tasks",
      .arr [.obj [("id", .str "t8"), ("done", .bool true)],
            .obj [("id", .str "t9")]])])]
    [("tasks", .arr [.obj [("id", .str "t8"), ("done", .bool true)],
                     .obj [("id", .str "t9")]])]
    [.obj [("id", .str "t8"), ("done", .bool true)], .obj [("id", .str "t9")]]
    rfl rfl (by decide)).1

/-! ### Consecutive-run lemmas -/

theorem consecFrom_mem {s : Int} {k : Nat} {x : Int}
    (hx : x ∈ consecFrom s k) : s ≤ x ∧ x < s + k := by
  induction k generalizing s with
  | zero => simp [consecFrom] at hx
  | succ k ih =>
    rw [consecFrom] at hx
    rcases List.mem_cons.mp hx with h | h
    · subst h; constructor <;> omega
    · have := ih h
      omega

theorem consecFrom_nodup (s : Int) (k : Nat) : (consecFrom s k).Nodup := by
  induction k generalizing s with
  | zero => simp [consecFrom]
  | succ k ih =>
    rw [consecFrom]
    refine List.nodup_cons.mpr ⟨fun hmem => ?_, ih (s + 1)⟩
    have := consecFrom_mem hmem
    omega

theorem consecFrom_chain (s : Int) (k : Nat) :
    List.Chain' (fun a b => b = a + 1) (consecFrom s k) := by
  induction k generalizing s with
  | zero => simp [consecFrom]
  | succ k ih =>
    cases k with
    | zero => simp [consecFrom]
    | succ k2 =>
      rw [consecFrom, consecFrom, List.chain'_cons]
      exact ⟨rfl, by simpa [consecFrom] using ih (s + 1)⟩

/-- Starting from any stored document, a request sequence keeps the store
non-empty, raises the revision by the number of accepted writes, and the
accepted writes are assigned the consecutive revisions that follow the
starting one. -/
theorem runStore_acceptedRevs_spec (ops : List Op) :
    ∀ d : Document,
      ∃ (k : Nat) (d2 : Document),
        runStore (some d) ops = some d2
        ∧ d2.revision = d.revision + k
        ∧ acceptedRevs (some d) ops = consecFrom (d.revision + 1) k := by
  induction ops with
  | nil => exact fun d => ⟨0, d, rfl, by simp, rfl⟩
  | cons op ops ih =>
    intro d
    cases op with
    | getDoc now => exact ih d
    | getInprogress now => exact ih d
    | putDoc now b dv =>
      rcases handle_put_doc_cases d now b dv with ⟨msg, h⟩ | h | h
      · obtain ⟨k, d2, h1, h2, h3⟩ := ih d
        refine ⟨k, d2, ?_, h2, ?_⟩
        · rw [runStore]
          simp only [stepStore, h]
          exact h1
        · simp only [acceptedRevs, stepStore, h]
          exact h3
      · obtain ⟨k, d2, h1, h2, h3⟩ := ih d
        refine ⟨k, d2, ?_, h2, ?_⟩
        · rw [runStore]
          simp only [stepStore, h]
          exact h1
        · simp only [acceptedRevs, stepStore, h]
          exact h3
      · obtain ⟨k, d2, h1, h2, h3⟩ :=
          ih ⟨d.revision + 1, now, dv.getD .null⟩
        refine ⟨k + 1, d2, ?_, ?_, ?_⟩
        · rw [runStore]
          simp only [stepStore, h]
          exact h1
        · rw [h2]
          show (⟨d.revision + 1, now, dv.getD .null⟩ : Document).revision
              + (k : Int) = d.revision + ((k : Int) + 1)
          show d.revision + 1 + (k : Int) = d.revision + ((k : Int) + 1)
          ring
        · simp only [acceptedRevs, stepStore, h]
          rw [h3, consecFrom]

/-- C5: over every request sequence starting from the seed document, the
store stays populated, the revision starts at 0 and equals the number of
accepted writes (hence is a non-negative integer), the accepted writes are
assigned the consecutive revisions `1, 2, ..., k` (each accepted write
increases the revision by exactly 1, never decreasing, never skipping), and
no two accepted writes share a revision. -/
theorem c5_revision_trace (now0 : String) (ops : List Op) :
    ∃ (k : Nat) (d2 : Document),
      runStore (some (seedDoc now0)) ops = some d2
      ∧ (seedDoc now0).revision = 0
      ∧ d2.revision = (k : Int)
      ∧ 0 ≤ d2.revision
      ∧ acceptedRevs (some (seedDoc now0)) ops = consecFrom 1 k
      ∧ List.Chain' (fun a b => b = a + 1)
          (acceptedRevs (some (seedDoc now0)) ops)
      ∧ (acceptedRevs (some (seedDoc now0)) ops).Nodup
      ∧ (∀ r ∈ acceptedRevs (some (seedDoc now0)) ops,
          1 ≤ r ∧ r ≤ (k : Int)) := by
  obtain ⟨k, d2, h1, h2, h3⟩ := runStore_acceptedRevs_spec ops (seedDoc now0)
  have h0 : (seedDoc now0).revision = 0 := rfl
  rw [h0, zero_add] at h2 h3
  refine ⟨k, d2, h1, h0, h2, ?_, h3, ?_, ?_, ?_⟩
  · rw [h2]; exact Int.natCast_nonneg k
  · rw [h3]; exact consecFrom_chain 1 k
  · rw [h3]; exact consecFrom_nodup 1 k
  · intro r hr
    rw [h3] at hr
    have := consecFrom_mem hr
    omega

/-- C4 counterexample: two concurrent propose-updates, both with
`baseRevision = 0` against the revision-0 seed store, interleaved as
load A, load B, write A, write B.  Both commit with a 200 response —
refuting that exactly one commits and the other receives a conflict — and
the final store holds only the second writer's payload (a lost update). -/
theorem c4_lost_update_counterexample :
    hasCommitted (runSched ⟨"TA", some (.num 0), some (.obj [("a", .num 1)])⟩
        ⟨"TB", some (.num 0), some (.obj [("b", .num 2)])⟩
        ⟨some (seedDoc "T0"), .ready, .ready⟩ [false, true, false, true]).w1
      = true
    ∧ hasCommitted (runSched ⟨"TA", some (.num 0), some (.obj [("a", .num 1)])⟩
        ⟨"TB", some (.num 0), some (.obj [("b", .num 2)])⟩
        ⟨some (seedDoc "T0"), .ready, .ready⟩ [false, true, false, true]).w2
      = true
    ∧ (runSched ⟨"TA", some (.num 0), some (.obj [("a", .num 1)])⟩
        ⟨"TB", some (.num 0), some (.obj [("b", .num 2)])⟩
        ⟨some (seedDoc "T0"), .ready, .ready⟩ [false, true, false, true]).store
      = some ⟨1, "TB", .obj [("b", .num 2)]⟩ :=
  ⟨rfl, rfl, rfl⟩

/-- C4 amended: the code takes no lock, so the read-check-write sequence of
a propose-update is not serialized against concurrent propose-updates.
When the two requests happen to run one after the other, exactly one
commits and the other receives a conflict; but there exists an overlapped
interleaving of two writers with the same `baseRevision` in which both
commit and the first writer's payload is lost. -/
theorem c4_unserialized_writers :
    ∃ (r1 r2 : PutRequest) (sched serialized : List Bool),
      r1.baseRevision = some (.num 0)
      ∧ r2.baseRevision = some (.num 0)
      ∧ hasCommitted (runSched r1 r2
          ⟨some (seedDoc "T0"), .ready, .ready⟩ sched).w1 = true
      ∧ hasCommitted (runSched r1 r2
          ⟨some (seedDoc "T0"), .ready, .ready⟩ sched).w2 = true
      ∧ (runSched r1 r2
          ⟨some (seedDoc "T0"), .ready, .ready⟩ sched).store = some ⟨1, "TB", .obj [("b", .num 2)]⟩
      ∧ hasCommitted (runSched r1 r2
          ⟨some (seedDoc "T0"), .ready, .ready⟩ serialized).w1 = true
      ∧ hasConflicted (runSched r1 r2
          ⟨some (seedDoc "T0"), .ready, .ready⟩ serialized).w2 = true :=
  ⟨⟨"TA", some (.num 0), some (.obj [("a", .num 1)])⟩,
   ⟨"TB", some (.num 0), some (.obj [("b", .num 2)])⟩,
   [false, true, false, true], [false, false, true, true],
   rfl, rfl, rfl, rfl, rfl, rfl, rfl⟩

end LineCook
